import Mathlib

/-!
Shallow embedding of the stream-subscription and reconnection core of the
CoinWidget Electron app (src/main/main.ts), together with proofs of the
behavioural properties stated about it.

The pure symbol functions (`normalizeSymbol`, `getMarketType`,
`getStreamName`) are translated directly from the TypeScript source.  The
stateful part (module-level WebSocket handles, reconnect timers, the watched
symbol list, the ipcMain handlers) is embedded as an explicit record
`MainState` with a deterministic `step` function over environment events
(socket open/message/close, timer firings, ipc calls).  JavaScript string
primitives (`toUpperCase`, `includes`, single-occurrence `replace`) are
modelled on ASCII data, which is the only data the program feeds them.
-/

set_option maxRecDepth 4000

namespace CoinWidget

/-- JS `String.prototype.toUpperCase`, modelled per-character on ASCII via
`Char.toUpper` (the program only applies it to exchange symbol tokens). -/
def jsToUpper (s : String) : String :=
  String.mk (s.toList.map Char.toUpper)

/-- JS `String.prototype.toLowerCase`, modelled per-character on ASCII via
`Char.toLower`. -/
def jsToLower (s : String) : String :=
  String.mk (s.toList.map Char.toLower)

/-- Boolean substring containment on lists: some contiguous run of `l`
equals `pat`. -/
def containsSub (pat : List Char) : List Char → Bool
  | [] => pat.isEmpty
  | c :: rest => pat.isPrefixOf (c :: rest) || containsSub pat rest

/-- JS `s.includes(pat)`: substring containment. -/
def jsIncludes (s pat : String) : Bool :=
  containsSub pat.toList s.toList

/-- JS `s.endsWith(pat)`.  Not used by the source itself; it renders the
specification's "marker suffix" condition so that suffix-based claims can be
stated. -/
def jsEndsWith (s pat : String) : Bool :=
  pat.toList.isSuffixOf s.toList

/-- JS `String.prototype.replace` with a plain-string pattern and the empty
replacement removes only the FIRST occurrence of the pattern (list level). -/
def dropFirstOccur (pat : List Char) : List Char → List Char
  | [] => []
  | c :: rest =>
    if pat.isPrefixOf (c :: rest) then (c :: rest).drop pat.length
    else c :: dropFirstOccur pat rest

/-- JS `s.replace(pat, '')` for a plain-string pattern: remove the first
occurrence of `pat` from `s`. -/
def jsReplaceFirst (s pat : String) : String :=
  String.mk (dropFirstOccur pat.toList s.toList)

/-- `normalizeSymbol` from src/main/main.ts:
`symbol.replace(/_/g, '').toUpperCase()` — remove every underscore
(global-regex replace), then uppercase. -/
def normalizeSymbol (symbol : String) : String :=
  jsToUpper (String.mk (symbol.toList.filter (fun c => c != '_')))

/-- the `MarketType` union from src/shared/types.ts. -/
inductive MarketType where
  | SPOT
  | PERP
deriving DecidableEq

/-- `getMarketType` from src/main/main.ts:
`symbol.includes('PERP') ? 'PERP' : 'SPOT'`. -/
def getMarketType (symbol : String) : MarketType :=
  if jsIncludes symbol "PERP" then .PERP else .SPOT

/-- `getStreamName` from src/main/main.ts.  For PERP symbols the first
occurrences of `PERP` and then `USDT` are removed from the normalized symbol
before lowercasing and appending `usdt@ticker`; for SPOT symbols the
normalized symbol is lowercased and `@ticker` appended. -/
def getStreamName (symbol : String) : String :=
  let normalized := normalizeSymbol symbol
  if getMarketType symbol = .PERP then
    jsToLower (jsReplaceFirst (jsReplaceFirst normalized "PERP") "USDT") ++ "usdt@ticker"
  else
    jsToLower normalized ++ "@ticker"

/-- consume a maximal run of decimal digits, returning their values and the
rest of the input. -/
def takeDigits : List Char → (List Nat × List Char)
  | [] => ([], [])
  | c :: rest =>
    if c.isDigit then
      let p := takeDigits rest
      ((c.toNat - 48) :: p.1, p.2)
    else ([], c :: rest)

/-- value of a digit-value list read most-significant first. -/
def digitsVal (ds : List Nat) : Nat :=
  ds.foldl (fun a d => a * 10 + d) 0

/-- Modelled decimal reading of JS `parseFloat` for plain optionally signed
decimal literals, which is the shape of the venue's price fields: returns
the sign, integer part and fraction digits, or `none` (JS `NaN`) when no
number can be read.  Exponent notation and leading whitespace are not
modelled; trailing garbage is ignored as in JS. -/
def jsParseFloat (s : String) : Option (Bool × Nat × List Nat) :=
  let l := s.toList
  let p : Bool × List Char :=
    match l with
    | '-' :: r => (true, r)
    | '+' :: r => (false, r)
    | r => (false, r)
  let ip := takeDigits p.2
  match ip.1, ip.2 with
  | [], '.' :: r =>
    let fp := takeDigits r
    if fp.1.isEmpty then none else some (p.1, 0, fp.1)
  | [], _ => none
  | ds, '.' :: r => some (p.1, digitsVal ds, (takeDigits r).1)
  | ds, _ => some (p.1, digitsVal ds, [])

/-- JS `Number.prototype.toFixed(2)` under an exact-decimal idealization:
round the value `ip + 0.frac` to hundredths, half away from zero, and render
with exactly two digits after the point.  For the venue's plain decimal
price strings this agrees with the double-based JS result. -/
def toFixed2 (neg : Bool) (ip : Nat) (frac : List Nat) : String :=
  let k := frac.length
  let n := ip * 10 ^ k + digitsVal frac
  let r := (n * 100 * 2 + 10 ^ k) / (2 * 10 ^ k)
  let sgn := if neg ∧ r ≠ 0 then "-" else ""
  let cents := r % 100
  sgn ++ toString (r / 100) ++ "." ++ (if cents < 10 then "0" else "") ++ toString cents

/-- `parseFloat(c).toFixed(2)` as used on the venue's last-price field. -/
def formatPrice (c : String) : String :=
  match jsParseFloat c with
  | some q => toFixed2 q.1 q.2.1 q.2.2
  | none => "NaN"

/-! ## State of the main process

The module-level mutable variables of src/main/main.ts, plus the persistent
environment objects they refer to: every `WebSocket` object ever created
(an abandoned object keeps its event handlers and can still fire events),
and every scheduled-but-unfired reconnect timer.  Outbound subscribe
frames and price-update emissions to the renderer are recorded in order. -/

/-- WebSocket readyState values. -/
inductive ReadyState where
  | CONNECTING
  | OPEN
  | CLOSING
  | CLOSED
deriving DecidableEq

/-- one WebSocket object.  `capturedSymbols` is the `symbols` argument
captured by the `onopen` closure that `connectTo*WebSocket` installed;
`requestedCloseCode` records the code this program passed to `close`. -/
structure Socket where
  sid : Nat
  segment : MarketType
  readyState : ReadyState
  capturedSymbols : List String
  requestedCloseCode : Option Nat
deriving DecidableEq

/-- an outbound `{method, params, id}` frame built by
`subscribeToSymbols` / `unsubscribeFromSymbols`. -/
structure SubMessage where
  method : String
  params : List String
  id : Nat
deriving DecidableEq

/-- one scheduled reconnect timer (`setTimeout` handle) that has neither
fired nor been cancelled. -/
structure RetryTimer where
  tid : Nat
  segment : MarketType
  delayMs : Nat
deriving DecidableEq

/-- the `PriceData` record built by `handleWebSocketMessage`
(src/shared/types.ts).  The `timestamp: Date.now()` field reads the wall
clock and is not modelled. -/
structure PriceData where
  symbol : String
  price : String
  priceChangePercent : String
  marketType : MarketType
deriving DecidableEq

/-- the `{symbol, data}` payload sent on the `price-update` channel to the
renderer sink; `symbol` is the full symbol with the PERP suffix re-appended
when applicable. -/
structure Emission where
  symbol : String
  data : PriceData
deriving DecidableEq

/-- the decoded JSON fields of an inbound frame that
`handleWebSocketMessage` inspects. -/
structure WireMessage where
  resultIsNull : Bool
  msgId : Option Nat
  e : Option String
  s : Option String
  c : Option String
  P : Option String
deriving DecidableEq

/-- the state of the main process core. -/
structure MainState where
  watchedSymbols : List String
  isQuitting : Bool
  wsSpotConnection : Option Nat
  wsPerpConnection : Option Nat
  reconnectTimeout : Option Nat
  perpReconnectTimeout : Option Nat
  requestId : Nat
  sockets : List Socket
  pendingRetries : List RetryTimer
  nextSocketId : Nat
  nextTimerId : Nat
  sent : List (Nat × SubMessage)
  emitted : List Emission
deriving DecidableEq

/-- look up a WebSocket object by identity. -/
def findSocket (st : MainState) (sid : Nat) : Option Socket :=
  st.sockets.find? (fun sock => sock.sid == sid)

/-- update one WebSocket object in place. -/
def updateSocket (st : MainState) (sid : Nat) (f : Socket → Socket) : MainState :=
  { st with sockets := st.sockets.map (fun sock => if sock.sid == sid then f sock else sock) }

/-- the module-level connection variable for a segment
(`wsSpotConnection` / `wsPerpConnection`). -/
def connOf (st : MainState) (mt : MarketType) : Option Nat :=
  match mt with
  | .SPOT => st.wsSpotConnection
  | .PERP => st.wsPerpConnection

/-- overwrite the module-level connection variable for a segment. -/
def withConn (st : MainState) (mt : MarketType) (v : Option Nat) : MainState :=
  match mt with
  | .SPOT => { st with wsSpotConnection := v }
  | .PERP => { st with wsPerpConnection := v }

/-- the module-level timer-handle variable for a segment
(`reconnectTimeout` / `perpReconnectTimeout`). -/
def reconnectHandleOf (st : MainState) (mt : MarketType) : Option Nat :=
  match mt with
  | .SPOT => st.reconnectTimeout
  | .PERP => st.perpReconnectTimeout

/-- overwrite the module-level timer-handle variable for a segment. -/
def withReconnectHandle (st : MainState) (mt : MarketType) (v : Option Nat) : MainState :=
  match mt with
  | .SPOT => { st with reconnectTimeout := v }
  | .PERP => { st with perpReconnectTimeout := v }

/-- the readyState test `wsConnection && wsConnection.readyState === WebSocket.OPEN`. -/
def connIsOpen (st : MainState) (conn : Option Nat) : Bool :=
  match conn with
  | none => false
  | some sid =>
    match findSocket st sid with
    | some sock => sock.readyState == .OPEN
    | none => false

/-- the `if (reconnectTimeout) { clearTimeout(reconnectTimeout); reconnectTimeout = null; }`
idiom: cancel the pending timer named by the handle and null the handle. -/
def clearReconnect (st : MainState) (mt : MarketType) : MainState :=
  match reconnectHandleOf st mt with
  | none => st
  | some tid =>
    withReconnectHandle
      { st with pendingRetries := st.pendingRetries.filter (fun t => t.tid != tid) } mt none

/-- the `reconnectTimeout = setTimeout(..., 5000)` assignment in the
`onclose` handlers: schedule a fresh 5-second retry timer and overwrite the
handle variable.  No `clearTimeout` precedes it in the source. -/
def scheduleReconnect (st : MainState) (mt : MarketType) : MainState :=
  withReconnectHandle
    { st with pendingRetries := st.pendingRetries ++ [⟨st.nextTimerId, mt, 5000⟩],
              nextTimerId := st.nextTimerId + 1 } mt (some st.nextTimerId)

/-- `ws.close(code, reason)`: request graceful shutdown of one socket. -/
def closeSocket (st : MainState) (sid : Nat) (code : Nat) : MainState :=
  updateSocket st sid
    (fun sock => { sock with readyState := .CLOSING, requestedCloseCode := some code })

/-- `subscribeToSymbols` from src/main/main.ts: if the segment's connection
is OPEN, send one batched SUBSCRIBE frame carrying every stream name and the
next request id. -/
def subscribeToSymbols (st : MainState) (symbols : List String) (mt : MarketType) : MainState :=
  match connOf st mt with
  | none => st
  | some sid =>
    match findSocket st sid with
    | none => st
    | some sock =>
      if sock.readyState = .OPEN then
        { st with
          sent := st.sent ++ [(sid, ⟨"SUBSCRIBE", symbols.map getStreamName, st.requestId⟩)],
          requestId := st.requestId + 1 }
      else st

/-- `unsubscribeFromSymbols` from src/main/main.ts. -/
def unsubscribeFromSymbols (st : MainState) (symbols : List String) (mt : MarketType) : MainState :=
  match connOf st mt with
  | none => st
  | some sid =>
    match findSocket st sid with
    | none => st
    | some sock =>
      if sock.readyState = .OPEN then
        { st with
          sent := st.sent ++ [(sid, ⟨"UNSUBSCRIBE", symbols.map getStreamName, st.requestId⟩)],
          requestId := st.requestId + 1 }
      else st

/-- first phase of `connectTo*WebSocket`: if a connection reference exists,
close the socket with code 1000 when it is OPEN (a non-OPEN one is merely
abandoned — its object and handlers survive) and null the reference. -/
def dropExisting (st : MainState) (mt : MarketType) : MainState :=
  match connOf st mt with
  | none => st
  | some sid =>
    let stc :=
      match findSocket st sid with
      | some sock => if sock.readyState = .OPEN then closeSocket st sid 1000 else st
      | none => st
    withConn stc mt none

/-- last phase of `connectTo*WebSocket`: create a fresh CONNECTING socket
whose handlers capture `symbols`, and point the module-level reference at
it. -/
def spawnSocket (st : MainState) (mt : MarketType) (symbols : List String) : MainState :=
  withConn
    { st with
      sockets := st.sockets ++ [⟨st.nextSocketId, mt, .CONNECTING, symbols, none⟩],
      nextSocketId := st.nextSocketId + 1 }
    mt (some st.nextSocketId)

/-- `connectToSpotWebSocket` / `connectToPerpWebSocket` (the two are
verbatim duplicates modulo segment): close or abandon any existing
connection, clear the pending reconnect timer, and create a new CONNECTING
socket whose handlers capture `symbols`. -/
def connectToWebSocket (st : MainState) (mt : MarketType) (symbols : List String) : MainState :=
  spawnSocket (clearReconnect (dropExisting st mt) mt) mt symbols

/-- the `onopen` handler installed by `connectTo*WebSocket`: subscribe the
captured symbol list (if nonempty), then clear any pending reconnect timer
for the segment. -/
def onOpenHandler (st : MainState) (mt : MarketType) (captured : List String) : MainState :=
  let st1 := if captured.length > 0 then subscribeToSymbols st captured mt else st
  clearReconnect st1 mt

/-- the `onclose` handler installed by `connectTo*WebSocket`: null the
module-level connection variable; then, if the app is not quitting and the
close code is not 1000, assign a fresh 5-second retry to the handle.  The
source performs no `clearTimeout` and no pending-timer check here. -/
def onCloseHandler (st : MainState) (mt : MarketType) (code : Nat) : MainState :=
  let st1 := withConn st mt none
  if st1.isQuitting = false ∧ code ≠ 1000 then scheduleReconnect st1 mt else st1

/-- JS truthiness of an optional string field (absent or empty is falsy). -/
def jsTruthyStr : Option String → Bool
  | none => false
  | some s => s != ""

/-- JS truthiness of an optional numeric field (absent or zero is falsy). -/
def jsTruthyNat : Option Nat → Bool
  | none => false
  | some n => n != 0

/-- `handleWebSocketMessage` from src/main/main.ts: drop subscription acks
(`result === null` with a truthy `id`); for `24hrTicker` frames with truthy
symbol and price fields, re-append the PERP suffix for the perpetual
segment and emit the `{symbol, data}` payload to the renderer sink; ignore
everything else. -/
def handleWebSocketMessage (st : MainState) (msg : WireMessage) (mt : MarketType) : MainState :=
  if msg.resultIsNull && jsTruthyNat msg.msgId then st
  else if msg.e == some "24hrTicker" && jsTruthyStr msg.s && jsTruthyStr msg.c then
    match msg.s, msg.c with
    | some s, some c =>
      let fullSymbol := if mt = .PERP then s ++ "PERP" else s
      let priceData : PriceData :=
        { symbol := s
          price := formatPrice c
          priceChangePercent :=
            match msg.P with
            | some p => if p = "" then "0.00" else p
            | none => "0.00"
          marketType := mt }
      { st with emitted := st.emitted ++ [⟨fullSymbol, priceData⟩] }
    | _, _ => st
  else st

/-- `addSymbolSubscription` from src/main/main.ts: if the segment's
connection is not OPEN, (re)connect with the full current symbol list of
the segment; otherwise send an incremental subscribe for just this symbol. -/
def addSymbolSubscription (st : MainState) (symbol : String) : MainState :=
  let mt := getMarketType symbol
  if connIsOpen st (connOf st mt) = false then
    connectToWebSocket st mt (st.watchedSymbols.filter (fun s => getMarketType s == mt))
  else
    subscribeToSymbols st [symbol] mt

/-- `removeSymbolSubscription` from src/main/main.ts: if the segment's
connection is OPEN, unsubscribe the symbol; then, if no other watched
symbol of the segment remains, close the connection with code 1000 and null
the module-level reference. -/
def removeSymbolSubscription (st : MainState) (symbol : String) : MainState :=
  let mt := getMarketType symbol
  match connOf st mt with
  | none => st
  | some sid =>
    match findSocket st sid with
    | none => st
    | some sock =>
      if sock.readyState = .OPEN then
        let st1 := unsubscribeFromSymbols st [symbol] mt
        if (st1.watchedSymbols.filter (fun s => getMarketType s == mt && s != symbol)).length = 0 then
          withConn (closeSocket st1 sid 1000) mt none
        else st1
      else st

/-- the `ipcMain.handle('add-symbol')` handler: uppercase the token, insert
it if absent (then notify the subscription layer) and report success. -/
def addSymbolHandler (st : MainState) (symbol : String) : Bool × MainState :=
  let upperSymbol := jsToUpper symbol
  if st.watchedSymbols.contains upperSymbol then (false, st)
  else
    let st1 := { st with watchedSymbols := st.watchedSymbols ++ [upperSymbol] }
    (true, addSymbolSubscription st1 upperSymbol)

/-- the `ipcMain.handle('remove-symbol')` handler: uppercase the token; if
present, first run `removeSymbolSubscription`, then splice the symbol out. -/
def removeSymbolHandler (st : MainState) (symbol : String) : Bool × MainState :=
  let upperSymbol := jsToUpper symbol
  if st.watchedSymbols.contains upperSymbol then
    let st1 := removeSymbolSubscription st upperSymbol
    (true, { st1 with watchedSymbols := st1.watchedSymbols.erase upperSymbol })
  else (false, st)

/-- `connectToBinance` from src/main/main.ts: split the watch-list by
segment and connect each nonempty segment. -/
def connectToBinance (st : MainState) : MainState :=
  let spotSymbols := st.watchedSymbols.filter (fun s => getMarketType s == MarketType.SPOT)
  let perpSymbols := st.watchedSymbols.filter (fun s => getMarketType s == MarketType.PERP)
  let st1 := if spotSymbols.length > 0 then connectToWebSocket st .SPOT spotSymbols else st
  if perpSymbols.length > 0 then connectToWebSocket st1 .PERP perpSymbols else st1

/-- the `ipcMain.on('close-app')` handler (the tray Exit item is
identical): set the quitting flag, close every OPEN connection with code
1000, null both references, and cancel both pending reconnect timers. -/
def closeAppHandler (st : MainState) : MainState :=
  let st1 := { st with isQuitting := true }
  let st2 :=
    match st1.wsSpotConnection with
    | some sid =>
      (match findSocket st1 sid with
       | some sock => if sock.readyState = ReadyState.OPEN then closeSocket st1 sid 1000 else st1
       | none => st1)
    | none => st1
  let st3 := { st2 with wsSpotConnection := none }
  let st4 :=
    match st3.wsPerpConnection with
    | some sid =>
      (match findSocket st3 sid with
       | some sock => if sock.readyState = ReadyState.OPEN then closeSocket st3 sid 1000 else st3
       | none => st3)
    | none => st3
  let st5 := { st4 with wsPerpConnection := none }
  clearReconnect (clearReconnect st5 .SPOT) .PERP

/-- body of the 5-second retry callback: recompute the segment's watched
symbols from the current watch-list and reconnect if any remain. -/
def retryBody (st : MainState) (mt : MarketType) : MainState :=
  let symbols := st.watchedSymbols.filter (fun s => getMarketType s == mt)
  if symbols.length > 0 then connectToWebSocket st mt symbols else st

/-- environment events driving the single-threaded event loop: WebSocket
lifecycle callbacks, timer firings, and ipc requests from the renderer. -/
inductive Event where
  | socketOpen (sid : Nat)
  | socketMessage (sid : Nat) (msg : WireMessage)
  | socketClosed (sid : Nat) (code : Nat)
  | timerFire (tid : Nat)
  | ipcAddSymbol (token : String)
  | ipcRemoveSymbol (token : String)
  | ipcReconnect
  | ipcCloseApp

/-- one step of the event loop.  A socket fires `open` only from
CONNECTING, `message` only while OPEN, and `close` exactly once (never
after CLOSED); a timer fires only while pending.  Events that violate
these transport rules leave the state unchanged. -/
def step (st : MainState) (ev : Event) : MainState :=
  match ev with
  | .socketOpen sid =>
    match findSocket st sid with
    | some sock =>
      if sock.readyState = .CONNECTING then
        onOpenHandler (updateSocket st sid (fun k => { k with readyState := .OPEN }))
          sock.segment sock.capturedSymbols
      else st
    | none => st
  | .socketMessage sid msg =>
    match findSocket st sid with
    | some sock =>
      if sock.readyState = .OPEN then handleWebSocketMessage st msg sock.segment else st
    | none => st
  | .socketClosed sid code =>
    match findSocket st sid with
    | some sock =>
      if sock.readyState ≠ .CLOSED then
        onCloseHandler (updateSocket st sid (fun k => { k with readyState := .CLOSED }))
          sock.segment code
      else st
    | none => st
  | .timerFire tid =>
    match st.pendingRetries.find? (fun t => t.tid == tid) with
    | some t =>
      retryBody { st with pendingRetries := st.pendingRetries.filter (fun u => u.tid != tid) }
        t.segment
    | none => st
  | .ipcAddSymbol token => (addSymbolHandler st token).2
  | .ipcRemoveSymbol token => (removeSymbolHandler st token).2
  | .ipcReconnect => connectToBinance st
  | .ipcCloseApp => closeAppHandler st

/-- run a sequence of events. -/
def run (st : MainState) (evs : List Event) : MainState :=
  evs.foldl step st

/-- the module-level initial values of src/main/main.ts. -/
def initState : MainState :=
  { watchedSymbols := ["BTCUSDT", "ETHUSDT"]
    isQuitting := false
    wsSpotConnection := none
    wsPerpConnection := none
    reconnectTimeout := none
    perpReconnectTimeout := none
    requestId := 1
    sockets := []
    pendingRetries := []
    nextSocketId := 0
    nextTimerId := 0
    sent := []
    emitted := [] }

/-- state right after `app.whenReady` ran `connectToBinance` (window and
tray creation do not touch the core). -/
def startupState : MainState :=
  connectToBinance initState

/-- number of scheduled-and-unfired reconnect timers for a segment. -/
def pendingRetryCount (st : MainState) (mt : MarketType) : Nat :=
  (st.pendingRetries.filter (fun t => t.segment == mt)).length

/-- concrete event trace used to analyse reconnect-timer behaviour: an add
while the spot socket is still CONNECTING abandons socket 0 and creates
socket 1; both sockets then fail with the network close code 1006 before
any retry fires. -/
def doubleCloseTrace : List Event :=
  [.ipcAddSymbol "SOLUSDT", .socketClosed 0 1006, .socketClosed 1 1006]

/-- the inbound ticker frame of the specification's spot scenario. -/
def spotScenarioFrame : WireMessage :=
  ⟨false, none, some "24hrTicker", some "BTCUSDT", some "65000.12", some "1.23"⟩

/-- an inbound perpetual-segment ticker frame with wire symbol BTCUSDT. -/
def perpScenarioFrame : WireMessage :=
  ⟨false, none, some "24hrTicker", some "BTCUSDT", some "50000.00", some "1.00"⟩

/-- a concrete state whose watch-list holds exactly one perpetual symbol
and whose perpetual connection is OPEN. -/
def onePerpOpenState : MainState :=
  run (connectToBinance { initState with watchedSymbols := ["BTCUSDTPERP"] }) [.socketOpen 0]

/-!  ## Helper lemmas  -/

theorem toNat_ofNat_valid (n : Nat) (h : n.isValidChar) : (Char.ofNat n).toNat = n := by
  simp [Char.ofNat, h, Char.ofNatAux, Char.toNat, UInt32.toNat, BitVec.toNat_ofNatLt]

theorem char_eq_of_toNat_eq {a b : Char} (h : a.toNat = b.toNat) : a = b :=
  Char.eq_of_val_eq (UInt32.ext h)

theorem toUpper_toNat (c : Char) :
    c.toUpper.toNat = if c.toNat ≥ 97 ∧ c.toNat ≤ 122 then c.toNat - 32 else c.toNat := by
  unfold Char.toUpper
  by_cases h : c.toNat ≥ 97 ∧ c.toNat ≤ 122
  · have hv : (c.toNat - 32).isValidChar := by
      unfold Nat.isValidChar
      exact Or.inl (by omega)
    simp only [h, if_true]
    exact toNat_ofNat_valid _ hv
  · simp [h]

theorem toUpper_idem (c : Char) : c.toUpper.toUpper = c.toUpper := by
  apply char_eq_of_toNat_eq
  rw [toUpper_toNat c.toUpper, toUpper_toNat c]
  by_cases h : c.toNat ≥ 97 ∧ c.toNat ≤ 122
  · simp [h]
    omega
  · simp [h]

theorem toUpper_ne_underscore (c : Char) (h : c ≠ '_') : c.toUpper ≠ '_' := by
  intro hc
  have h2 : c.toUpper.toNat = 95 := by rw [hc]; rfl
  rw [toUpper_toNat c] at h2
  by_cases h3 : c.toNat ≥ 97 ∧ c.toNat ≤ 122
  · simp [h3] at h2
    omega
  · simp [h3] at h2
    exact h (char_eq_of_toNat_eq (by rw [h2]; rfl))

theorem toUpper_of_isUpper (c : Char) (h : c.isUpper = true) : c.toUpper = c := by
  apply char_eq_of_toNat_eq
  rw [toUpper_toNat c]
  have h2 : c.toNat ≤ 90 := by
    simp [Char.isUpper] at h
    exact h.2
  rw [if_neg (by omega)]

theorem isUpper_ne_underscore (c : Char) (h : c.isUpper = true) : c ≠ '_' := by
  intro hc
  rw [hc] at h
  simp [Char.isUpper] at h

theorem string_eq_of_toList_eq {a b : String} (h : a.toList = b.toList) : a = b := by
  cases a
  cases b
  simp [String.toList] at h
  rw [h]

theorem toList_mk (l : List Char) : (String.mk l).toList = l := rfl

theorem toList_append (a b : String) : (a ++ b).toList = a.toList ++ b.toList :=
  String.data_append a b

theorem containsSub_infixPred_iff (pat l : List Char) :
    containsSub pat l = true ↔ pat <:+: l := by
  induction l with
  | nil => simp [containsSub, List.isEmpty_iff, List.infix_nil]
  | cons c rest ih =>
    simp only [containsSub, Bool.or_eq_true, List.infix_cons_iff, ih,
      List.isPrefixOf_iff_prefix]

theorem prefix_of_append_of_le {p t l : List Char} (hp : p <+: t ++ l)
    (hlen : p.length ≤ t.length) : p <+: t := by
  have h1 : p = (t ++ l).take p.length := List.prefix_iff_eq_take.mp hp
  have h2 : (t ++ l).take p.length = t.take p.length := by
    rw [List.take_append_eq_append_take, Nat.sub_eq_zero_of_le hlen]
    simp
  rw [h1, h2]
  exact List.take_prefix _ _

theorem drop_prefix_of_append {p t l : List Char} (hp : p <+: t ++ l)
    (hlen : t.length ≤ p.length) : p.drop t.length <+: l := by
  rcases hp with ⟨r, hr⟩
  have ht : t = p.take t.length := by
    have := congrArg (List.take t.length) hr
    rw [List.take_append_eq_append_take, Nat.sub_eq_zero_of_le hlen] at this
    simpa [List.take_left] using this.symm
  have hsplit : p = t ++ p.drop t.length := by
    conv_lhs => rw [← List.take_append_drop t.length p]
    rw [← ht]
  rw [hsplit, List.append_assoc] at hr
  exact ⟨r, List.append_cancel_left hr⟩

theorem not_prefix_of_suffix (pat l₂ base : List Char)
    (hinf : containsSub pat base = false)
    (hshort : ∀ j : Fin pat.length, 0 < j.val → (pat.drop j.val).isPrefixOf l₂ = false) :
    ∀ t, t <:+ base → t ≠ [] → pat.isPrefixOf (t ++ l₂) = false := by
  intro t ht hne
  by_contra hcon
  have hp : pat <+: t ++ l₂ :=
    List.isPrefixOf_iff_prefix.mp (eq_true_of_ne_false hcon)
  by_cases hlen : t.length < pat.length
  · have hpos : 0 < t.length := List.length_pos.mpr hne
    have hd : pat.drop t.length <+: l₂ := drop_prefix_of_append hp (Nat.le_of_lt hlen)
    have h2 : (pat.drop t.length).isPrefixOf l₂ = false := hshort ⟨t.length, hlen⟩ hpos
    have h3 : (pat.drop t.length).isPrefixOf l₂ = true := List.isPrefixOf_iff_prefix.mpr hd
    rw [h3] at h2
    exact Bool.noConfusion h2
  · have hple : pat.length ≤ t.length := Nat.le_of_not_lt hlen
    have hpt : pat <+: t := prefix_of_append_of_le hp hple
    have : pat <:+: base := List.infix_iff_prefix_suffix.mpr ⟨t, hpt, ht⟩
    rw [← containsSub_infixPred_iff] at this
    rw [hinf] at this
    exact Bool.false_ne_true this

theorem dropFirstOccur_cons (pat : List Char) (c : Char) (rest : List Char) :
    dropFirstOccur pat (c :: rest) =
      if pat.isPrefixOf (c :: rest) then (c :: rest).drop pat.length
      else c :: dropFirstOccur pat rest := rfl

theorem dropFirstOccur_append (pat l₂ : List Char) :
    ∀ l₁ : List Char, (∀ t, t <:+ l₁ → t ≠ [] → pat.isPrefixOf (t ++ l₂) = false) →
      dropFirstOccur pat (l₁ ++ l₂) = l₁ ++ dropFirstOccur pat l₂ := by
  intro l₁
  induction l₁ with
  | nil => intro _; rfl
  | cons c rest ih =>
    intro h
    have hc : pat.isPrefixOf (c :: (rest ++ l₂)) = false := by
      have h0 := h (c :: rest) (List.suffix_refl _) (by simp)
      rwa [List.cons_append] at h0
    have hrec := ih (fun t ht hne => h t (ht.trans (List.suffix_cons c rest)) hne)
    calc dropFirstOccur pat ((c :: rest) ++ l₂)
        = dropFirstOccur pat (c :: (rest ++ l₂)) := by rw [List.cons_append]
      _ = c :: dropFirstOccur pat (rest ++ l₂) := by
            rw [dropFirstOccur_cons, hc]
            simp
      _ = c :: (rest ++ dropFirstOccur pat l₂) := by rw [hrec]
      _ = (c :: rest) ++ dropFirstOccur pat l₂ := by rw [List.cons_append]

/-!  ### Frame lemmas for the state machine  -/

theorem watched_withConn (st : MainState) (mt : MarketType) (v : Option Nat) :
    (withConn st mt v).watchedSymbols = st.watchedSymbols := by
  cases mt <;> rfl

theorem sockets_withConn (st : MainState) (mt : MarketType) (v : Option Nat) :
    (withConn st mt v).sockets = st.sockets := by
  cases mt <;> rfl

theorem pendingRetries_withConn (st : MainState) (mt : MarketType) (v : Option Nat) :
    (withConn st mt v).pendingRetries = st.pendingRetries := by
  cases mt <;> rfl

theorem nextSocketId_withConn (st : MainState) (mt : MarketType) (v : Option Nat) :
    (withConn st mt v).nextSocketId = st.nextSocketId := by
  cases mt <;> rfl

theorem isQuitting_withConn (st : MainState) (mt : MarketType) (v : Option Nat) :
    (withConn st mt v).isQuitting = st.isQuitting := by
  cases mt <;> rfl

theorem connOf_withConn_same (st : MainState) (mt : MarketType) (v : Option Nat) :
    connOf (withConn st mt v) mt = v := by
  cases mt <;> rfl

theorem watched_withReconnectHandle (st : MainState) (mt : MarketType) (v : Option Nat) :
    (withReconnectHandle st mt v).watchedSymbols = st.watchedSymbols := by
  cases mt <;> rfl

theorem sockets_withReconnectHandle (st : MainState) (mt : MarketType) (v : Option Nat) :
    (withReconnectHandle st mt v).sockets = st.sockets := by
  cases mt <;> rfl

theorem nextSocketId_withReconnectHandle (st : MainState) (mt : MarketType) (v : Option Nat) :
    (withReconnectHandle st mt v).nextSocketId = st.nextSocketId := by
  cases mt <;> rfl

theorem connOf_withReconnectHandle (st : MainState) (mt mt2 : MarketType) (v : Option Nat) :
    connOf (withReconnectHandle st mt v) mt2 = connOf st mt2 := by
  cases mt <;> cases mt2 <;> rfl

theorem watched_clearReconnect (st : MainState) (mt : MarketType) :
    (clearReconnect st mt).watchedSymbols = st.watchedSymbols := by
  unfold clearReconnect
  cases h : reconnectHandleOf st mt <;> simp [watched_withReconnectHandle]

theorem sockets_clearReconnect (st : MainState) (mt : MarketType) :
    (clearReconnect st mt).sockets = st.sockets := by
  unfold clearReconnect
  cases h : reconnectHandleOf st mt <;> simp [sockets_withReconnectHandle]

theorem nextSocketId_clearReconnect (st : MainState) (mt : MarketType) :
    (clearReconnect st mt).nextSocketId = st.nextSocketId := by
  unfold clearReconnect
  cases h : reconnectHandleOf st mt <;> simp [nextSocketId_withReconnectHandle]

theorem connOf_clearReconnect (st : MainState) (mt mt2 : MarketType) :
    connOf (clearReconnect st mt) mt2 = connOf st mt2 := by
  unfold clearReconnect
  cases h : reconnectHandleOf st mt
  · rfl
  · rw [connOf_withReconnectHandle]
    cases mt2 <;> rfl

theorem watched_updateSocket (st : MainState) (sid : Nat) (f : Socket → Socket) :
    (updateSocket st sid f).watchedSymbols = st.watchedSymbols := rfl

theorem pendingRetries_updateSocket (st : MainState) (sid : Nat) (f : Socket → Socket) :
    (updateSocket st sid f).pendingRetries = st.pendingRetries := rfl

theorem connOf_updateSocket (st : MainState) (sid : Nat) (f : Socket → Socket)
    (mt : MarketType) : connOf (updateSocket st sid f) mt = connOf st mt := by
  cases mt <;> rfl

theorem find?_map_pres {α : Type} (p : α → Bool) (g : α → α)
    (hg : ∀ a, p (g a) = p a) : ∀ l : List α, (l.map g).find? p = (l.find? p).map g := by
  intro l
  induction l with
  | nil => rfl
  | cons a l ih =>
    by_cases h : p a = true
    · rw [List.map_cons, List.find?_cons_of_pos _ (by rw [hg]; exact h),
        List.find?_cons_of_pos _ h]
      rfl
    · rw [List.map_cons, List.find?_cons_of_neg _ (by rw [hg]; exact h),
        List.find?_cons_of_neg _ h]
      exact ih

theorem findSocket_updateSocket (st : MainState) (sid : Nat) (f : Socket → Socket)
    (hf : ∀ sock, (f sock).sid = sock.sid) (sid2 : Nat) :
    findSocket (updateSocket st sid f) sid2
      = (findSocket st sid2).map (fun sock => if sock.sid == sid then f sock else sock) := by
  unfold findSocket updateSocket
  exact find?_map_pres _ _
    (fun a => by by_cases h : (a.sid == sid) = true <;> simp [h, hf]) st.sockets

theorem all_sid_lt_updateSocket (st : MainState) (sid : Nat) (f : Socket → Socket)
    (hf : ∀ sock, (f sock).sid = sock.sid) (n : Nat)
    (h : st.sockets.all (fun k => k.sid < n) = true) :
    (updateSocket st sid f).sockets.all (fun k => k.sid < n) = true := by
  rw [List.all_eq_true] at h ⊢
  intro x hx
  rcases List.mem_map.mp hx with ⟨y, hy, rfl⟩
  by_cases hys : (y.sid == sid) = true <;> simp [hys, hf] <;> simpa using h y hy

/-- readyState of a code-1000 closure never schedules a retry. -/
theorem pendingRetries_onCloseHandler_1000 (st : MainState) (mt : MarketType) :
    (onCloseHandler st mt 1000).pendingRetries = st.pendingRetries := by
  unfold onCloseHandler
  simp [pendingRetries_withConn]

theorem findSocket_withConn (st : MainState) (mt : MarketType) (v : Option Nat) (n : Nat) :
    findSocket (withConn st mt v) n = findSocket st n := by
  cases mt <;> rfl

theorem watched_subscribeToSymbols (st : MainState) (symbols : List String) (mt : MarketType) :
    (subscribeToSymbols st symbols mt).watchedSymbols = st.watchedSymbols := by
  unfold subscribeToSymbols
  cases h : connOf st mt with
  | none => rfl
  | some sid =>
    cases h2 : findSocket st sid with
    | none => simp [h2]
    | some sock =>
      by_cases h3 : sock.readyState = ReadyState.OPEN <;> simp [h2, h3]

theorem watched_dropExisting (st : MainState) (mt : MarketType) :
    (dropExisting st mt).watchedSymbols = st.watchedSymbols := by
  unfold dropExisting
  cases h : connOf st mt with
  | none => rfl
  | some sid =>
    rw [watched_withConn]
    cases h2 : findSocket st sid with
    | none => simp [h2]
    | some sock =>
      by_cases h3 : sock.readyState = ReadyState.OPEN <;> simp [h2, h3, closeSocket, updateSocket]

theorem nextSocketId_dropExisting (st : MainState) (mt : MarketType) :
    (dropExisting st mt).nextSocketId = st.nextSocketId := by
  unfold dropExisting
  cases h : connOf st mt with
  | none => rfl
  | some sid =>
    rw [nextSocketId_withConn]
    cases h2 : findSocket st sid with
    | none => simp [h2]
    | some sock =>
      by_cases h3 : sock.readyState = ReadyState.OPEN <;> simp [h2, h3, closeSocket, updateSocket]

theorem all_sid_lt_dropExisting (st : MainState) (mt : MarketType) (n : Nat)
    (h : st.sockets.all (fun k => k.sid < n) = true) :
    (dropExisting st mt).sockets.all (fun k => k.sid < n) = true := by
  unfold dropExisting
  cases hc : connOf st mt with
  | none => exact h
  | some sid =>
    rw [sockets_withConn]
    cases h2 : findSocket st sid with
    | none => simpa [h2] using h
    | some sock =>
      by_cases h3 : sock.readyState = ReadyState.OPEN
      · simp only [h2, h3, if_true]
        unfold closeSocket
        exact all_sid_lt_updateSocket st sid
          (fun sock => { sock with readyState := ReadyState.CLOSING, requestedCloseCode := some 1000 }) (fun k => rfl) n h
      · simp only [h2]
        rw [if_neg h3]
        exact h

theorem watched_spawnSocket (st : MainState) (mt : MarketType) (symbols : List String) :
    (spawnSocket st mt symbols).watchedSymbols = st.watchedSymbols := by
  unfold spawnSocket
  rw [watched_withConn]

theorem connOf_spawnSocket (st : MainState) (mt : MarketType) (symbols : List String) :
    connOf (spawnSocket st mt symbols) mt = some st.nextSocketId := by
  unfold spawnSocket
  rw [connOf_withConn_same]

theorem findSocket_spawnSocket (st : MainState) (mt : MarketType) (symbols : List String)
    (hall : st.sockets.all (fun k => k.sid < st.nextSocketId) = true) :
    findSocket (spawnSocket st mt symbols) st.nextSocketId
      = some ⟨st.nextSocketId, mt, .CONNECTING, symbols, none⟩ := by
  unfold spawnSocket
  rw [findSocket_withConn]
  show List.find? (fun sock => sock.sid == st.nextSocketId)
      (st.sockets ++ [⟨st.nextSocketId, mt, .CONNECTING, symbols, none⟩])
    = some ⟨st.nextSocketId, mt, .CONNECTING, symbols, none⟩
  rw [List.find?_append]
  have hnonef : List.find? (fun sock => sock.sid == st.nextSocketId) st.sockets = none := by
    apply List.find?_eq_none.mpr
    intro x hx
    have hlt : x.sid < st.nextSocketId := by
      have h4 := List.all_eq_true.mp hall x hx
      simpa using h4
    simp [Nat.ne_of_lt hlt]
  rw [hnonef]
  simp

theorem watched_connectToWebSocket (st : MainState) (mt : MarketType) (symbols : List String) :
    (connectToWebSocket st mt symbols).watchedSymbols = st.watchedSymbols := by
  unfold connectToWebSocket
  rw [watched_spawnSocket, watched_clearReconnect, watched_dropExisting]

theorem watched_addSymbolSubscription (st : MainState) (u : String) :
    (addSymbolSubscription st u).watchedSymbols = st.watchedSymbols := by
  unfold addSymbolSubscription
  by_cases h : connIsOpen st (connOf st (getMarketType u)) = false
  · rw [if_pos h]
    exact watched_connectToWebSocket st _ _
  · rw [if_neg h]
    exact watched_subscribeToSymbols st _ _

theorem connectToWebSocket_new_socket (st : MainState) (mt : MarketType) (symbols : List String)
    (hfresh : st.sockets.all (fun sock => sock.sid < st.nextSocketId) = true) :
    connOf (connectToWebSocket st mt symbols) mt = some st.nextSocketId ∧
    findSocket (connectToWebSocket st mt symbols) st.nextSocketId
      = some ⟨st.nextSocketId, mt, .CONNECTING, symbols, none⟩ := by
  unfold connectToWebSocket
  have hnid : (clearReconnect (dropExisting st mt) mt).nextSocketId = st.nextSocketId := by
    rw [nextSocketId_clearReconnect, nextSocketId_dropExisting]
  have hall2 : (clearReconnect (dropExisting st mt) mt).sockets.all
      (fun k => k.sid < (clearReconnect (dropExisting st mt) mt).nextSocketId) = true := by
    rw [sockets_clearReconnect, hnid]
    exact all_sid_lt_dropExisting st mt st.nextSocketId
      (by simpa [nextSocketId_dropExisting] using hfresh)
  constructor
  · rw [connOf_spawnSocket, hnid]
  · rw [← hnid]
    exact findSocket_spawnSocket _ mt symbols hall2

theorem connOf_setWatched (st : MainState) (w : List String) (mt : MarketType) :
    connOf { st with watchedSymbols := w } mt = connOf st mt := by
  cases mt <;> rfl

theorem findSocket_setWatched (st : MainState) (w : List String) (n : Nat) :
    findSocket { st with watchedSymbols := w } n = findSocket st n := rfl

theorem pendingRetries_setWatched (st : MainState) (w : List String) :
    MainState.pendingRetries { st with watchedSymbols := w } = st.pendingRetries := rfl

/-!  ## Claims  -/

/-- C9: normalization is idempotent — for every token `t`,
`normalizeSymbol (normalizeSymbol t) = normalizeSymbol t`. -/
theorem normalize_idempotent (t : String) :
    normalizeSymbol (normalizeSymbol t) = normalizeSymbol t := by
  apply string_eq_of_toList_eq
  show (((t.toList.filter (fun c => c != '_')).map Char.toUpper).filter
        (fun c => c != '_')).map Char.toUpper
      = (t.toList.filter (fun c => c != '_')).map Char.toUpper
  have hfe : ((t.toList.filter (fun c => c != '_')).map Char.toUpper).filter
        (fun c => c != '_')
      = (t.toList.filter (fun c => c != '_')).map Char.toUpper := by
    apply List.filter_eq_self.mpr
    intro a ha
    rcases List.mem_map.mp ha with ⟨c, hc, rfl⟩
    have hcne : c ≠ '_' := by
      have h2 := (List.mem_filter.mp hc).2
      simpa [bne_iff_ne] using h2
    simpa [bne_iff_ne] using toUpper_ne_underscore c hcne
  rw [hfe, List.map_map]
  exact List.map_congr_left (fun a _ => toUpper_idem a)

/-- C5 counterexample: the claim says normalize fails with
`InvalidSymbolFormat` exactly on the empty token, but the source has no
failure path at all — `normalizeSymbol ""` succeeds (returning `""`) and the
add-symbol handler accepts the empty token, returns `true`, and mutates the
watch-list. -/
theorem empty_token_not_rejected :
    normalizeSymbol "" = "" ∧
    (addSymbolHandler initState "").1 = true ∧
    (addSymbolHandler initState "").2.watchedSymbols = ["BTCUSDT", "ETHUSDT", ""] := by
  refine ⟨rfl, rfl, by decide⟩

/-- C5 amended: normalize never fails — it is total on every token,
including the empty one; the add-symbol result is determined solely by
membership of the uppercased token in the watch-list, with no emptiness or
format check anywhere. -/
theorem add_result_depends_only_on_membership (st : MainState) (t : String) :
    (addSymbolHandler st t).1 = !(st.watchedSymbols.contains (jsToUpper t)) := by
  cases h : st.watchedSymbols.contains (jsToUpper t)
  · have h2 : jsToUpper t ∉ st.watchedSymbols := by simpa using h
    simp [addSymbolHandler, h2, h]
  · have h2 : jsToUpper t ∈ st.watchedSymbols := by simpa using h
    simp [addSymbolHandler, h2, h]

/-- C6 counterexample: the claim says a token is classified perpetual
exactly when it carries the marker as a SUFFIX, but `getMarketType` tests
substring containment — the token `PERPUSDT` does not end in `PERP` yet is
classified perpetual. -/
theorem substring_marker_classified_perp :
    getMarketType "PERPUSDT" = MarketType.PERP ∧
    jsEndsWith "PERPUSDT" "PERP" = false := by
  refine ⟨by decide, by decide⟩

/-- C6 amended: the market segment is derived deterministically from the
token, but by substring containment of the marker `PERP` anywhere in the
token (so every token with the marker as a suffix is perpetual, and so are
tokens merely containing it). -/
theorem market_type_iff_contains_marker (s : String) :
    (getMarketType s = MarketType.PERP ↔ jsIncludes s "PERP" = true) ∧
    getMarketType (s ++ "PERP") = MarketType.PERP := by
  constructor
  · unfold getMarketType
    cases h : jsIncludes s "PERP" <;> simp [h]
  · unfold getMarketType
    have h : jsIncludes (s ++ "PERP") "PERP" = true := by
      unfold jsIncludes
      rw [toList_append]
      exact (containsSub_infixPred_iff _ _).mpr (List.IsSuffix.isInfix ⟨s.toList, rfl⟩)
    rw [h]
    rfl

/-- C1 counterexample: two pending reconnect retry timers for the spot
segment are reachable before any retry fires.  An add-symbol request while
socket 0 is still CONNECTING abandons socket 0 (its handlers stay attached)
and creates socket 1; each socket then closes unexpectedly (code 1006)
while symbols remain watched, and the `onclose` handler schedules a timer
both times without checking for an already-pending one. -/
theorem two_pending_retries_reachable :
    pendingRetryCount (run startupState doubleCloseTrace) MarketType.SPOT = 2 ∧
    (run startupState doubleCloseTrace).isQuitting = false ∧
    (run startupState doubleCloseTrace).watchedSymbols
      = ["BTCUSDT", "ETHUSDT", "SOLUSDT"] := by
  refine ⟨by decide, by decide, by decide⟩

/-- C1 amended: an unexpected closure (code ≠ 1000, not quitting) appends
exactly one fresh 5-second retry timer and overwrites the stored handle
with it; it does not cancel or check a previously pending retry, so a
second unexpected closure before the first retry fires (possible via an
abandoned CONNECTING socket) leaves two timers pending. -/
theorem onclose_appends_one_retry (st : MainState) (mt : MarketType) (code : Nat)
    (hq : st.isQuitting = false) (hc : code ≠ 1000) :
    (onCloseHandler st mt code).pendingRetries
      = st.pendingRetries ++ [⟨st.nextTimerId, mt, 5000⟩] ∧
    reconnectHandleOf (onCloseHandler st mt code) mt = some st.nextTimerId := by
  cases mt <;>
    simp [onCloseHandler, withConn, scheduleReconnect, reconnectHandleOf,
      withReconnectHandle, hq, hc]

/-- witness for the C1 amended theorem at a concrete state and close code. -/
theorem onclose_appends_one_retry_witness :
    (onCloseHandler initState MarketType.SPOT 1006).pendingRetries
      = initState.pendingRetries ++ [⟨initState.nextTimerId, MarketType.SPOT, 5000⟩] ∧
    reconnectHandleOf (onCloseHandler initState MarketType.SPOT 1006) MarketType.SPOT
      = some initState.nextTimerId :=
  onclose_appends_one_retry initState MarketType.SPOT 1006 rfl (by decide)

/-- C4: starting from the default watch-list `[BTCUSDT, ETHUSDT]`, when the
spot connection opens the multiplexer sends exactly one batched subscribe
request `{method: SUBSCRIBE, params: [btcusdt@ticker, ethusdt@ticker],
id: 1}`, and the inbound frame
`{"e":"24hrTicker","s":"BTCUSDT","c":"65000.12","P":"1.23"}` on the spot
segment is dispatched to the sink as
`{symbol: BTCUSDT, price: 65000.12, priceChangePercent: 1.23, marketType: SPOT}`. -/
theorem spot_scenario_subscribe_and_dispatch :
    (run startupState [.socketOpen 0, .socketMessage 0 spotScenarioFrame]).sent
      = [(0, ⟨"SUBSCRIBE", ["btcusdt@ticker", "ethusdt@ticker"], 1⟩)] ∧
    (run startupState [.socketOpen 0, .socketMessage 0 spotScenarioFrame]).emitted
      = [⟨"BTCUSDT", ⟨"BTCUSDT", "65000.12", "1.23", MarketType.SPOT⟩⟩] := by
  refine ⟨by decide, by decide⟩

/-- C3: every ticker frame dispatched on the perpetual segment is emitted
with the segment marker re-appended to the wire symbol — the dispatcher
adds exactly one emission whose sink symbol is the wire symbol followed by
`PERP`, carrying the wire symbol and the perpetual segment in its data. -/
theorem perp_ticker_reappends_marker (st : MainState) (msg : WireMessage) (s c : String)
    (hack : (msg.resultIsNull && jsTruthyNat msg.msgId) = false)
    (he : msg.e = some "24hrTicker") (hs : msg.s = some s) (hc : msg.c = some c)
    (hs0 : s ≠ "") (hc0 : c ≠ "") :
    (handleWebSocketMessage st msg MarketType.PERP).emitted
      = st.emitted
        ++ [⟨s ++ "PERP",
             ⟨s, formatPrice c,
              (match msg.P with
               | some p => if p = "" then "0.00" else p
               | none => "0.00"),
              MarketType.PERP⟩⟩] := by
  unfold handleWebSocketMessage
  rw [hack, he, hs, hc]
  simp [jsTruthyStr, hs0, hc0]

/-- witness for C3 at a concrete ticker frame with wire symbol BTCUSDT. -/
theorem perp_ticker_reappends_marker_witness :
    (handleWebSocketMessage initState perpScenarioFrame MarketType.PERP).emitted
      = initState.emitted
        ++ [⟨"BTCUSDT" ++ "PERP",
             ⟨"BTCUSDT", formatPrice "50000.00",
              (match perpScenarioFrame.P with
               | some p => if p = "" then "0.00" else p
               | none => "0.00"),
              MarketType.PERP⟩⟩] :=
  perp_ticker_reappends_marker initState perpScenarioFrame "BTCUSDT" "50000.00"
    rfl rfl rfl rfl (by decide) (by decide)

/-- C7: adding a symbol already present returns false and leaves the
entire state — watch-list and outbound request log included — unchanged;
adding an absent symbol returns true and appends the uppercased symbol to
the watch-list. -/
theorem add_symbol_membership_semantics (st : MainState) (t : String) :
    (st.watchedSymbols.contains (jsToUpper t) = true →
       addSymbolHandler st t = (false, st)) ∧
    (st.watchedSymbols.contains (jsToUpper t) = false →
       (addSymbolHandler st t).1 = true ∧
       (addSymbolHandler st t).2.watchedSymbols = st.watchedSymbols ++ [jsToUpper t]) := by
  constructor
  · intro h
    have h2 : jsToUpper t ∈ st.watchedSymbols := by simpa using h
    simp [addSymbolHandler, h2, h]
  · intro h
    have h2 : jsToUpper t ∉ st.watchedSymbols := by simpa using h
    have hb : (addSymbolHandler st t)
        = (true, addSymbolSubscription
            { st with watchedSymbols := st.watchedSymbols ++ [jsToUpper t] } (jsToUpper t)) := by
      simp [addSymbolHandler, h2, h]
    rw [hb]
    exact ⟨rfl, by rw [watched_addSymbolSubscription]⟩

/-- witness for C7: both branches at concrete states. -/
theorem add_symbol_membership_semantics_witness :
    addSymbolHandler initState "BTCUSDT" = (false, initState) ∧
    (addSymbolHandler initState "SOLUSDT").1 = true ∧
    (addSymbolHandler initState "SOLUSDT").2.watchedSymbols
      = ["BTCUSDT", "ETHUSDT", "SOLUSDT"] := by
  refine ⟨(add_symbol_membership_semantics initState "BTCUSDT").1 (by decide),
    ((add_symbol_membership_semantics initState "SOLUSDT").2 (by decide)).1,
    (((add_symbol_membership_semantics initState "SOLUSDT").2 (by decide)).2).trans (by decide)⟩

/-- C10: a successful add pushes the uppercased symbol into the watch-list
before and independently of any subscription attempt — it is a member of
the resulting watch-list whatever the connection state; and when the
segment's connection is not open, the freshly created connection captures a
symbol list (for the on-open full resubscribe) that already contains the
new symbol, because that list is derived from the updated watch-list. -/
theorem add_inserts_before_subscribe (st : MainState) (t : String)
    (habs : st.watchedSymbols.contains (jsToUpper t) = false)
    (hfresh : st.sockets.all (fun sock => sock.sid < st.nextSocketId) = true) :
    (addSymbolHandler st t).1 = true ∧
    jsToUpper t ∈ (addSymbolHandler st t).2.watchedSymbols ∧
    (connIsOpen st (connOf st (getMarketType (jsToUpper t))) = false →
      ∃ sid sock,
        connOf (addSymbolHandler st t).2 (getMarketType (jsToUpper t)) = some sid ∧
        findSocket (addSymbolHandler st t).2 sid = some sock ∧
        jsToUpper t ∈ sock.capturedSymbols) := by
  have h2 : jsToUpper t ∉ st.watchedSymbols := by simpa using habs
  have hb : (addSymbolHandler st t)
      = (true, addSymbolSubscription
          { st with watchedSymbols := st.watchedSymbols ++ [jsToUpper t] } (jsToUpper t)) := by
    simp [addSymbolHandler, h2, habs]
  rw [hb]
  set st1 := { st with watchedSymbols := st.watchedSymbols ++ [jsToUpper t] } with hst1
  refine ⟨rfl, ?_, ?_⟩
  · show jsToUpper t ∈ (addSymbolSubscription st1 (jsToUpper t)).watchedSymbols
    rw [watched_addSymbolSubscription]
    show jsToUpper t ∈ st.watchedSymbols ++ [jsToUpper t]
    simp
  · intro hnotopen
    have hopen1 : connIsOpen st1 (connOf st1 (getMarketType (jsToUpper t))) = false := hnotopen
    have hsub : addSymbolSubscription st1 (jsToUpper t)
        = connectToWebSocket st1 (getMarketType (jsToUpper t))
            (st1.watchedSymbols.filter
              (fun s => getMarketType s == getMarketType (jsToUpper t))) := by
      unfold addSymbolSubscription
      rw [if_pos hopen1]
    show ∃ sid sock,
        connOf (addSymbolSubscription st1 (jsToUpper t)) (getMarketType (jsToUpper t))
            = some sid ∧
        findSocket (addSymbolSubscription st1 (jsToUpper t)) sid = some sock ∧
        jsToUpper t ∈ sock.capturedSymbols
    rw [hsub]
    have hfresh1 : st1.sockets.all (fun sock => sock.sid < st1.nextSocketId) = true := hfresh
    have hnew := connectToWebSocket_new_socket st1 (getMarketType (jsToUpper t))
      (st1.watchedSymbols.filter (fun s => getMarketType s == getMarketType (jsToUpper t)))
      hfresh1
    refine ⟨st1.nextSocketId,
      ⟨st1.nextSocketId, getMarketType (jsToUpper t), .CONNECTING,
        st1.watchedSymbols.filter (fun s => getMarketType s == getMarketType (jsToUpper t)),
        none⟩,
      hnew.1, hnew.2, ?_⟩
    show jsToUpper t ∈ st1.watchedSymbols.filter
        (fun s => getMarketType s == getMarketType (jsToUpper t))
    rw [List.mem_filter]
    refine ⟨?_, beq_self_eq_true _⟩
    show jsToUpper t ∈ st.watchedSymbols ++ [jsToUpper t]
    simp

/-- C2: removing the last watched symbol of a segment while that segment's
connection is open returns true, closes that connection with the
intentional close code 1000, nulls the module-level reference, schedules no
retry during removal, and — because the close code is 1000 — the eventual
close event for that socket schedules no retry either. -/
theorem remove_last_symbol_closes_intentionally
    (st : MainState) (t : String) (mt : MarketType) (sid : Nat) (sock : Socket)
    (hmt : getMarketType (jsToUpper t) = mt)
    (hmem : st.watchedSymbols.contains (jsToUpper t) = true)
    (hconn : connOf st mt = some sid)
    (hsock : findSocket st sid = some sock)
    (hopen : sock.readyState = ReadyState.OPEN)
    (hlast : st.watchedSymbols.filter
        (fun s => getMarketType s == mt && s != jsToUpper t) = []) :
    (removeSymbolHandler st t).1 = true ∧
    findSocket (removeSymbolHandler st t).2 sid
      = some { sock with
          readyState := ReadyState.CLOSING,
          requestedCloseCode := some 1000 } ∧
    connOf (removeSymbolHandler st t).2 mt = none ∧
    (removeSymbolHandler st t).2.pendingRetries = st.pendingRetries ∧
    (step (removeSymbolHandler st t).2 (.socketClosed sid 1000)).pendingRetries
      = st.pendingRetries := by
  have hsid : (sock.sid == sid) = true := by
    unfold findSocket at hsock
    have h0 := List.find?_some hsock
    exact h0
  have hunsub : unsubscribeFromSymbols st [jsToUpper t] mt
      = { st with
          sent := st.sent
            ++ [(sid, ⟨"UNSUBSCRIBE", [jsToUpper t].map getStreamName, st.requestId⟩)],
          requestId := st.requestId + 1 } := by
    unfold unsubscribeFromSymbols
    simp only [hconn, hsock]
    rw [if_pos hopen]
  have hrem : removeSymbolSubscription st (jsToUpper t)
      = withConn (closeSocket
          { st with
            sent := st.sent
              ++ [(sid, ⟨"UNSUBSCRIBE", [jsToUpper t].map getStreamName, st.requestId⟩)],
            requestId := st.requestId + 1 } sid 1000) mt none := by
    unfold removeSymbolSubscription
    simp only [hmt, hconn, hsock]
    rw [if_pos hopen, hunsub]
    rw [if_pos ?_]
    show (List.filter (fun s => getMarketType s == mt && s != jsToUpper t)
        st.watchedSymbols).length = 0
    rw [hlast]
    rfl
  have hhandler : removeSymbolHandler st t
      = (true,
         { withConn (closeSocket
             { st with
               sent := st.sent
                 ++ [(sid, ⟨"UNSUBSCRIBE", [jsToUpper t].map getStreamName, st.requestId⟩)],
               requestId := st.requestId + 1 } sid 1000) mt none with
           watchedSymbols :=
             (withConn (closeSocket
               { st with
                 sent := st.sent
                   ++ [(sid, ⟨"UNSUBSCRIBE", [jsToUpper t].map getStreamName, st.requestId⟩)],
                 requestId := st.requestId + 1 } sid 1000) mt none).watchedSymbols.erase
               (jsToUpper t) }) := by
    unfold removeSymbolHandler
    rw [if_pos hmem, hrem]
  have hfind : findSocket (removeSymbolHandler st t).2 sid
      = some { sock with
          readyState := ReadyState.CLOSING,
          requestedCloseCode := some 1000 } := by
    simp only [hhandler]
    rw [findSocket_setWatched, findSocket_withConn]
    unfold closeSocket
    rw [findSocket_updateSocket _ sid
      (fun sock => { sock with readyState := ReadyState.CLOSING, requestedCloseCode := some 1000 }) (fun k => rfl) sid]
    have hfs : findSocket { st with
        sent := st.sent
          ++ [(sid, ⟨"UNSUBSCRIBE", [jsToUpper t].map getStreamName, st.requestId⟩)],
        requestId := st.requestId + 1 } sid = some sock := hsock
    rw [hfs]
    have hss : sock.sid = sid := by simpa using hsid
    simp [hss]
  have hpend : (removeSymbolHandler st t).2.pendingRetries = st.pendingRetries := by
    simp only [hhandler]
    rw [pendingRetries_setWatched, pendingRetries_withConn]
    unfold closeSocket
    rw [pendingRetries_updateSocket]
  refine ⟨by simp [hhandler], hfind, ?_, hpend, ?_⟩
  · simp only [hhandler]
    rw [connOf_setWatched, connOf_withConn_same]
  · simp only [step, hfind]
    rw [if_pos (by simp)]
    rw [pendingRetries_onCloseHandler_1000, pendingRetries_updateSocket]
    exact hpend

/-- witness for C2: removing the only perpetual symbol while the perpetual
connection is open. -/
theorem remove_last_symbol_closes_intentionally_witness :
    (removeSymbolHandler onePerpOpenState "BTCUSDTPERP").1 = true ∧
    findSocket (removeSymbolHandler onePerpOpenState "BTCUSDTPERP").2 0
      = some ⟨0, MarketType.PERP, ReadyState.CLOSING, ["BTCUSDTPERP"], some 1000⟩ ∧
    connOf (removeSymbolHandler onePerpOpenState "BTCUSDTPERP").2 MarketType.PERP = none ∧
    (removeSymbolHandler onePerpOpenState "BTCUSDTPERP").2.pendingRetries
      = onePerpOpenState.pendingRetries ∧
    (step (removeSymbolHandler onePerpOpenState "BTCUSDTPERP").2
        (.socketClosed 0 1000)).pendingRetries
      = onePerpOpenState.pendingRetries :=
  remove_last_symbol_closes_intentionally onePerpOpenState "BTCUSDTPERP" MarketType.PERP 0
    ⟨0, MarketType.PERP, ReadyState.OPEN, ["BTCUSDTPERP"], none⟩
    (by decide) (by decide) (by decide) (by decide) rfl (by decide)

/-- C8: the derived stream name of a perpetual symbol omits the segment
marker — for a symbol of the form base+USDT+PERP (base uppercase,
marker-free and quote-free) the stream name is the lower-cased base+quote
pair followed by the ticker-channel suffix, e.g.
`getStreamName "BTCUSDTPERP" = "btcusdt@ticker"`, and contains the marker
in neither case; for a spot symbol it is the lower-cased normalized symbol
followed by the ticker-channel suffix. -/
theorem stream_name_strips_marker (sym base : String)
    (hspot : getMarketType sym = MarketType.SPOT)
    (hb1 : containsSub "PERP".toList base.toList = false)
    (hb2 : containsSub "USDT".toList base.toList = false)
    (hb3 : base.toList.all Char.isUpper = true) :
    getStreamName "BTCUSDTPERP" = "btcusdt@ticker" ∧
    jsIncludes (getStreamName "BTCUSDTPERP") "PERP" = false ∧
    jsIncludes (getStreamName "BTCUSDTPERP") "perp" = false ∧
    getStreamName sym = jsToLower (normalizeSymbol sym) ++ "@ticker" ∧
    getStreamName (base ++ "USDTPERP") = jsToLower base ++ "usdt@ticker" := by
  have hfilterb : base.toList.filter (fun c => c != '_') = base.toList :=
    List.filter_eq_self.mpr (fun a ha => by
      have h4 := List.all_eq_true.mp hb3 a ha
      simpa [bne_iff_ne] using isUpper_ne_underscore a h4)
  have hmapb : base.toList.map Char.toUpper = base.toList := by
    have h0 : base.toList.map Char.toUpper = base.toList.map (fun a => a) :=
      List.map_congr_left (fun a ha => toUpper_of_isUpper a (List.all_eq_true.mp hb3 a ha))
    simpa using h0
  have hnl : (normalizeSymbol (base ++ "USDTPERP")).toList
      = base.toList ++ "USDTPERP".toList := by
    show ((base ++ "USDTPERP").toList.filter (fun c => c != '_')).map Char.toUpper
      = base.toList ++ "USDTPERP".toList
    rw [toList_append, List.filter_append, hfilterb, List.map_append, hmapb]
    congr 1
  have hnorm : normalizeSymbol (base ++ "USDTPERP") = base ++ "USDTPERP" :=
    string_eq_of_toList_eq (by rw [hnl, toList_append])
  have hinc : jsIncludes (base ++ "USDTPERP") "PERP" = true := by
    unfold jsIncludes
    rw [toList_append]
    apply (containsSub_infixPred_iff _ _).mpr
    apply List.IsSuffix.isInfix
    refine ⟨base.toList ++ "USDT".toList, ?_⟩
    rw [List.append_assoc]
    rfl
  have hMT : getMarketType (base ++ "USDTPERP") = MarketType.PERP := by
    unfold getMarketType
    rw [hinc]
    rfl
  have hcond1 : ∀ t2, t2 <:+ base.toList → t2 ≠ [] →
      ("PERP".toList).isPrefixOf (t2 ++ "USDTPERP".toList) = false :=
    not_prefix_of_suffix _ _ _ hb1 (by decide)
  have hcond2 : ∀ t2, t2 <:+ base.toList → t2 ≠ [] →
      ("USDT".toList).isPrefixOf (t2 ++ "USDT".toList) = false :=
    not_prefix_of_suffix _ _ _ hb2 (by decide)
  have hd1 : dropFirstOccur "PERP".toList (base.toList ++ "USDTPERP".toList)
      = base.toList ++ "USDT".toList := by
    rw [dropFirstOccur_append _ _ _ hcond1]
    rw [show dropFirstOccur "PERP".toList "USDTPERP".toList = "USDT".toList from by decide]
  have hd2 : dropFirstOccur "USDT".toList (base.toList ++ "USDT".toList)
      = base.toList := by
    rw [dropFirstOccur_append _ _ _ hcond2]
    rw [show dropFirstOccur "USDT".toList "USDT".toList = ([] : List Char) from by decide]
    exact List.append_nil _
  have hperp : getStreamName (base ++ "USDTPERP") = jsToLower base ++ "usdt@ticker" := by
    unfold getStreamName
    rw [if_pos hMT, hnorm]
    have hr1 : jsReplaceFirst (base ++ "USDTPERP") "PERP"
        = String.mk (base.toList ++ "USDT".toList) := by
      apply string_eq_of_toList_eq
      show dropFirstOccur "PERP".toList ((base ++ "USDTPERP").toList)
        = base.toList ++ "USDT".toList
      rw [toList_append]
      exact hd1
    rw [hr1]
    have hr2 : jsReplaceFirst (String.mk (base.toList ++ "USDT".toList)) "USDT"
        = String.mk base.toList := by
      apply string_eq_of_toList_eq
      show dropFirstOccur "USDT".toList (base.toList ++ "USDT".toList) = base.toList
      exact hd2
    rw [hr2]
    rfl
  have hspotc : getStreamName sym = jsToLower (normalizeSymbol sym) ++ "@ticker" := by
    unfold getStreamName
    rw [if_neg (by simp [hspot])]
  exact ⟨by decide, by decide, by decide, hspotc, hperp⟩

/-- witness for C8 at the spot symbol ETHUSDT and the perpetual base BTC. -/
theorem stream_name_strips_marker_witness :
    getStreamName "BTCUSDTPERP" = "btcusdt@ticker" ∧
    jsIncludes (getStreamName "BTCUSDTPERP") "PERP" = false ∧
    jsIncludes (getStreamName "BTCUSDTPERP") "perp" = false ∧
    getStreamName "ETHUSDT" = jsToLower (normalizeSymbol "ETHUSDT") ++ "@ticker" ∧
    getStreamName ("BTC" ++ "USDTPERP") = jsToLower "BTC" ++ "usdt@ticker" :=
  stream_name_strips_marker "ETHUSDT" "BTC" (by decide) (by decide) (by decide) (by decide)

/-- witness for C10 at a concrete state with no open connection. -/
theorem add_inserts_before_subscribe_witness :
    (addSymbolHandler initState "SOLUSDT").1 = true ∧
    jsToUpper "SOLUSDT" ∈ (addSymbolHandler initState "SOLUSDT").2.watchedSymbols ∧
    (connIsOpen initState (connOf initState (getMarketType (jsToUpper "SOLUSDT"))) = false →
      ∃ sid sock,
        connOf (addSymbolHandler initState "SOLUSDT").2
            (getMarketType (jsToUpper "SOLUSDT")) = some sid ∧
        findSocket (addSymbolHandler initState "SOLUSDT").2 sid = some sock ∧
        jsToUpper "SOLUSDT" ∈ sock.capturedSymbols) :=
  add_inserts_before_subscribe initState "SOLUSDT" (by decide) (by decide)

end CoinWidget
